import Mathlib

/-!
Verification of the MPC core (`src/MPC.cpp`).

The C++ code formulates a nonlinear program for a model-predictive
controller: `FG_eval::operator()` evaluates the cost (`fg[0]`) and the
constraint residuals (`fg[1..6N]`) at a candidate decision-variable
vector, and `MPC::Solve` builds the variable/constraint bounds, invokes
the external IPOPT solver, and extracts the first actuator command plus
the predicted trajectory.

Embedding conventions: `double` arithmetic is modelled by exact `ℚ`
arithmetic; the transcendental functions `sin`, `cos`, `atan` and the
constant `M_PI` are parameters (a `Trig` record), so every definition is
computable and the theorems hold for any interpretation of them; CppAD
vectors are total functions `ℕ → ℚ`, with writes modelled by
`Function.update` in program order, and for-loops by `List.foldl` over
`List.range`; the external solver is a parameter returning a status and
a solution vector.
-/

namespace MPCVerify

/-- Candidate/decision vectors, bound vectors and `fg` vectors: `CPPAD_TESTVECTOR`
entries indexed by position. -/
abbrev Vec := ℕ → ℚ

/-- The transcendental functions and the constant `M_PI` used by the code,
kept abstract so that the development stays computable. -/
structure Trig where
  sin : ℚ → ℚ
  cos : ℚ → ℚ
  atan : ℚ → ℚ
  pi : ℚ

/-- `const size_t N = 15;` — timestep count of the horizon. -/
def N : ℕ := 15

/-- `const double dt = 0.1;` — timestep duration. -/
def dt : ℚ := 0.1

/-- `const int cost_cte_factor = 3000;` -/
def cost_cte_factor : ℚ := 3000

/-- `const int cost_epsi_factor = 500;` -/
def cost_epsi_factor : ℚ := 500

/-- `const int cost_v_factor = 1;` -/
def cost_v_factor : ℚ := 1

/-- `const int cost_current_delta_factor = 1;` -/
def cost_current_delta_factor : ℚ := 1

/-- `const int cost_diff_delta_factor = 200;` -/
def cost_diff_delta_factor : ℚ := 200

/-- `const int cost_current_a_factor = 1;` -/
def cost_current_a_factor : ℚ := 1

/-- `const int cost_diff_a_factor = 1;` -/
def cost_diff_a_factor : ℚ := 1

/-- `const double Lf = 2.67;` — front-axle-to-CoG length. -/
def Lf : ℚ := 2.67

/-- `double ref_cte = 0;` -/
def ref_cte : ℚ := 0

/-- `double ref_epsi = 0;` -/
def ref_epsi : ℚ := 0

/-- `double ref_v = 40;` -/
def ref_v : ℚ := 40

/-- `const size_t x_start = 0;` -/
def x_start : ℕ := 0

/-- `const size_t y_start = x_start + N;` -/
def y_start : ℕ := x_start + N

/-- `const size_t psi_start = y_start + N;` -/
def psi_start : ℕ := y_start + N

/-- `const size_t v_start = psi_start + N;` -/
def v_start : ℕ := psi_start + N

/-- `const size_t cte_start = v_start + N;` -/
def cte_start : ℕ := v_start + N

/-- `const size_t epsi_start = cte_start + N;` -/
def epsi_start : ℕ := cte_start + N

/-- `const size_t delta_start = epsi_start + N;` -/
def delta_start : ℕ := epsi_start + N

/-- `const size_t a_start = delta_start + N - 1;` -/
def a_start : ℕ := delta_start + N - 1

/-- `size_t n_vars = 6 * N + 2 * (N - 1);` from `MPC::Solve`. -/
def n_vars : ℕ := 6 * N + 2 * (N - 1)

/-- `size_t n_constraints = 6 * N;` from `MPC::Solve`. -/
def n_constraints : ℕ := 6 * N

/-- First cost loop of `FG_eval::operator()`: for `i < N`, the three
`fg[0] +=` statements on the tracking errors, accumulated in program order. -/
def costLoop1 (vars : Vec) (acc : ℚ) : ℚ :=
  (List.range N).foldl (fun a i =>
    a + cost_cte_factor * (vars (cte_start + i) - ref_cte) ^ 2
      + cost_epsi_factor * (vars (epsi_start + i) - ref_epsi) ^ 2
      + cost_v_factor * (vars (v_start + i) - ref_v) ^ 2) acc

/-- Second cost loop of `FG_eval::operator()`: for `i < N - 1`, the actuator
magnitude terms. -/
def costLoop2 (vars : Vec) (acc : ℚ) : ℚ :=
  (List.range (N - 1)).foldl (fun a i =>
    a + cost_current_delta_factor * vars (delta_start + i) ^ 2
      + cost_current_a_factor * vars (a_start + i) ^ 2) acc

/-- Third cost loop of `FG_eval::operator()`: for `i < N - 2`, the
sequential-actuator gap terms. -/
def costLoop3 (vars : Vec) (acc : ℚ) : ℚ :=
  (List.range (N - 2)).foldl (fun a i =>
    a + cost_diff_delta_factor * (vars (delta_start + i + 1) - vars (delta_start + i)) ^ 2
      + cost_diff_a_factor * (vars (a_start + i + 1) - vars (a_start + i)) ^ 2) acc

/-- The value accumulated into `fg[0]`: `fg[0] = 0` followed by the three
cost loops. -/
def cost (vars : Vec) : ℚ := costLoop3 vars (costLoop2 vars (costLoop1 vars 0))

/-- An accumulation loop `for i in range n: acc = g acc i`, where each step
adds `f i`, computes `acc + Σ f`. -/
theorem foldl_acc_sum (g : ℚ → ℕ → ℚ) (f : ℕ → ℚ) (hg : ∀ a i, g a i = a + f i) :
    ∀ (n : ℕ) (acc : ℚ), (List.range n).foldl g acc = acc + ∑ i in Finset.range n, f i := by
  intro n
  induction n with
  | zero => intro acc; simp
  | succ k ih =>
    intro acc
    rw [List.range_succ, List.foldl_append, List.foldl_cons, List.foldl_nil, hg, ih,
      Finset.sum_range_succ]
    ring

theorem costLoop1_eq (vars : Vec) (acc : ℚ) :
    costLoop1 vars acc = acc + ∑ i in Finset.range N,
      (cost_cte_factor * (vars (cte_start + i) - ref_cte) ^ 2
        + cost_epsi_factor * (vars (epsi_start + i) - ref_epsi) ^ 2
        + cost_v_factor * (vars (v_start + i) - ref_v) ^ 2) := by
  exact foldl_acc_sum _ _ (fun a i => by ring) N acc

theorem costLoop2_eq (vars : Vec) (acc : ℚ) :
    costLoop2 vars acc = acc + ∑ i in Finset.range (N - 1),
      (cost_current_delta_factor * vars (delta_start + i) ^ 2
        + cost_current_a_factor * vars (a_start + i) ^ 2) := by
  exact foldl_acc_sum _ _ (fun a i => by ring) (N - 1) acc

theorem costLoop3_eq (vars : Vec) (acc : ℚ) :
    costLoop3 vars acc = acc + ∑ i in Finset.range (N - 2),
      (cost_diff_delta_factor * (vars (delta_start + i + 1) - vars (delta_start + i)) ^ 2
        + cost_diff_a_factor * (vars (a_start + i + 1) - vars (a_start + i)) ^ 2) := by
  exact foldl_acc_sum _ _ (fun a i => by ring) (N - 2) acc

/-- C2: the scalar cost computed by the formulator is the weighted sum of
tracking terms (weights 3000, 500, 1 against targets 0, 0, 40) over `[0,N)`,
control-effort terms (weights 1, 1) over `[0,N-1)`, and control-smoothness
terms on consecutive-control differences (weights 200, 1) over `[0,N-2)`. -/
theorem cost_eq_weighted_sums (vars : Vec) :
    cost vars =
      (∑ i in Finset.range N,
        (3000 * (vars (cte_start + i) - 0) ^ 2
          + 500 * (vars (epsi_start + i) - 0) ^ 2
          + 1 * (vars (v_start + i) - 40) ^ 2))
      + (∑ i in Finset.range (N - 1),
        (1 * vars (delta_start + i) ^ 2 + 1 * vars (a_start + i) ^ 2))
      + (∑ i in Finset.range (N - 2),
        (200 * (vars (delta_start + i + 1) - vars (delta_start + i)) ^ 2
          + 1 * (vars (a_start + i + 1) - vars (a_start + i)) ^ 2)) := by
  rw [cost, costLoop3_eq, costLoop2_eq, costLoop1_eq]
  rw [cost_cte_factor, cost_epsi_factor, cost_v_factor, cost_current_delta_factor,
    cost_current_a_factor, cost_diff_delta_factor, cost_diff_a_factor, ref_cte, ref_epsi, ref_v]
  ring

/-- Initial-state constraint writes of `FG_eval::operator()`:
`fg[1 + s_start] = vars[s_start]` for the six state components, in program
order. -/
def setInit (vars fg : Vec) : Vec :=
  Function.update (Function.update (Function.update (Function.update (Function.update
    (Function.update fg
      (1 + x_start) (vars x_start))
      (1 + y_start) (vars y_start))
      (1 + psi_start) (vars psi_start))
      (1 + v_start) (vars v_start))
      (1 + cte_start) (vars cte_start))
      (1 + epsi_start) (vars epsi_start)

/-- One iteration of the prediction loop of `FG_eval::operator()`: reads the
states at `t` and `t+1` and the actuation at `t`, computes `f0` and `psides0`
from the polynomial coefficients, and writes the six residuals
`fg[2 + s_start + i]`, in program order. -/
def constraintStep (T : Trig) (coeffs vars : Vec) (i : ℕ) (fg : Vec) : Vec :=
  let x1 := vars (x_start + i + 1)
  let y1 := vars (y_start + i + 1)
  let psi1 := vars (psi_start + i + 1)
  let v1 := vars (v_start + i + 1)
  let cte1 := vars (cte_start + i + 1)
  let epsi1 := vars (epsi_start + i + 1)
  let x0 := vars (x_start + i)
  let y0 := vars (y_start + i)
  let psi0 := vars (psi_start + i)
  let v0 := vars (v_start + i)
  let cte0 := vars (cte_start + i)
  let epsi0 := vars (epsi_start + i)
  let delta0 := vars (delta_start + i)
  let a0 := vars (a_start + i)
  let f0 := coeffs 0 + coeffs 1 * x0 + coeffs 2 * x0 ^ 2 + coeffs 3 * x0 ^ 3
  let psides0 := T.atan (coeffs 1 + (2 * coeffs 2 * x0) + (3 * coeffs 3 * x0 ^ 2))
  Function.update (Function.update (Function.update (Function.update (Function.update
    (Function.update fg
      (2 + x_start + i) (x1 - (x0 + v0 * T.cos psi0 * dt)))
      (2 + y_start + i) (y1 - (y0 + v0 * T.sin psi0 * dt)))
      (2 + psi_start + i) (psi1 - (psi0 - v0 * delta0 / Lf * dt)))
      (2 + v_start + i) (v1 - (v0 + a0 * dt)))
      (2 + cte_start + i) (cte1 - ((f0 - y0) + (v0 * T.sin epsi0 * dt))))
      (2 + epsi_start + i) (epsi1 - ((psi0 - psides0) - v0 * delta0 / Lf * dt))

/-- The whole of `FG_eval::operator()` acting on an incoming `fg` vector:
the accumulated cost at index 0, the initial-state writes, then the
prediction loop for `i < N - 1`. -/
def FG_eval_run (T : Trig) (coeffs vars fg0 : Vec) : Vec :=
  (List.range (N - 1)).foldl (fun fg i => constraintStep T coeffs vars i fg)
    (setInit vars (Function.update fg0 0 (cost vars)))

/-- Reading a loop-written cell after the loop: if iteration `i` writes value
`val i` at index `idx i` and no other iteration touches `idx i`, then after
folding over `range n` the cell `idx i` holds `val i` for every `i < n`. -/
theorem foldl_write_lookup (g : ℕ → Vec → Vec) (idx : ℕ → ℕ) (val : ℕ → ℚ) (m : ℕ)
    (hwrite : ∀ i, i < m → ∀ fg, g i fg (idx i) = val i)
    (hskip : ∀ i j, i < m → j < m → j ≠ i → ∀ fg, g j fg (idx i) = fg (idx i)) :
    ∀ n, n ≤ m → ∀ (fg0 : Vec) (i : ℕ), i < n →
      (List.range n).foldl (fun fg j => g j fg) fg0 (idx i) = val i := by
  intro n
  induction n with
  | zero => intro _ fg0 i hi; omega
  | succ k ih =>
    intro hk fg0 i hi
    rw [List.range_succ, List.foldl_append, List.foldl_cons, List.foldl_nil]
    by_cases h : i = k
    · subst h
      exact hwrite i (by omega) _
    · rw [hskip i k (by omega) (by omega) (Ne.symm h)]
      exact ih (by omega) fg0 i (by omega)

/-- A loop iteration `j` leaves every cell other than its own six targets
unchanged. -/
theorem constraintStep_skip (T : Trig) (coeffs vars : Vec) (j : ℕ) (fg : Vec) (k : ℕ)
    (hx : k ≠ 2 + x_start + j) (hy : k ≠ 2 + y_start + j) (hpsi : k ≠ 2 + psi_start + j)
    (hv : k ≠ 2 + v_start + j) (hcte : k ≠ 2 + cte_start + j) (hepsi : k ≠ 2 + epsi_start + j) :
    constraintStep T coeffs vars j fg k = fg k := by
  simp only [constraintStep, Function.update_apply, if_neg hx, if_neg hy, if_neg hpsi,
    if_neg hv, if_neg hcte, if_neg hepsi]

theorem constraintStep_x (T : Trig) (coeffs vars : Vec) (i : ℕ) (fg : Vec) :
    constraintStep T coeffs vars i fg (2 + x_start + i)
      = vars (x_start + i + 1)
          - (vars (x_start + i) + vars (v_start + i) * T.cos (vars (psi_start + i)) * dt) := by
  simp only [constraintStep]
  rw [Function.update_noteq (by simp only [x_start, y_start, psi_start, v_start,
      cte_start, epsi_start, N]; omega),
    Function.update_noteq (by simp only [x_start, y_start, psi_start, v_start,
      cte_start, epsi_start, N]; omega),
    Function.update_noteq (by simp only [x_start, y_start, psi_start, v_start,
      cte_start, epsi_start, N]; omega),
    Function.update_noteq (by simp only [x_start, y_start, psi_start, v_start,
      cte_start, epsi_start, N]; omega),
    Function.update_noteq (by simp only [x_start, y_start, psi_start, v_start,
      cte_start, epsi_start, N]; omega),
    Function.update_same]

theorem constraintStep_y (T : Trig) (coeffs vars : Vec) (i : ℕ) (fg : Vec) :
    constraintStep T coeffs vars i fg (2 + y_start + i)
      = vars (y_start + i + 1)
          - (vars (y_start + i) + vars (v_start + i) * T.sin (vars (psi_start + i)) * dt) := by
  simp only [constraintStep]
  rw [Function.update_noteq (by simp only [x_start, y_start, psi_start, v_start,
      cte_start, epsi_start, N]; omega),
    Function.update_noteq (by simp only [x_start, y_start, psi_start, v_start,
      cte_start, epsi_start, N]; omega),
    Function.update_noteq (by simp only [x_start, y_start, psi_start, v_start,
      cte_start, epsi_start, N]; omega),
    Function.update_noteq (by simp only [x_start, y_start, psi_start, v_start,
      cte_start, epsi_start, N]; omega),
    Function.update_same]

theorem constraintStep_psi (T : Trig) (coeffs vars : Vec) (i : ℕ) (fg : Vec) :
    constraintStep T coeffs vars i fg (2 + psi_start + i)
      = vars (psi_start + i + 1)
          - (vars (psi_start + i)
              - vars (v_start + i) * vars (delta_start + i) / Lf * dt) := by
  simp only [constraintStep]
  rw [Function.update_noteq (by simp only [x_start, y_start, psi_start, v_start,
      cte_start, epsi_start, N]; omega),
    Function.update_noteq (by simp only [x_start, y_start, psi_start, v_start,
      cte_start, epsi_start, N]; omega),
    Function.update_noteq (by simp only [x_start, y_start, psi_start, v_start,
      cte_start, epsi_start, N]; omega),
    Function.update_same]

theorem constraintStep_v (T : Trig) (coeffs vars : Vec) (i : ℕ) (fg : Vec) :
    constraintStep T coeffs vars i fg (2 + v_start + i)
      = vars (v_start + i + 1) - (vars (v_start + i) + vars (a_start + i) * dt) := by
  simp only [constraintStep]
  rw [Function.update_noteq (by simp only [x_start, y_start, psi_start, v_start,
      cte_start, epsi_start, N]; omega),
    Function.update_noteq (by simp only [x_start, y_start, psi_start, v_start,
      cte_start, epsi_start, N]; omega),
    Function.update_same]

theorem constraintStep_cte (T : Trig) (coeffs vars : Vec) (i : ℕ) (fg : Vec) :
    constraintStep T coeffs vars i fg (2 + cte_start + i)
      = vars (cte_start + i + 1)
          - ((coeffs 0 + coeffs 1 * vars (x_start + i) + coeffs 2 * vars (x_start + i) ^ 2
                + coeffs 3 * vars (x_start + i) ^ 3 - vars (y_start + i))
              + (vars (v_start + i) * T.sin (vars (epsi_start + i)) * dt)) := by
  simp only [constraintStep]
  rw [Function.update_noteq (by simp only [x_start, y_start, psi_start, v_start,
      cte_start, epsi_start, N]; omega),
    Function.update_same]

theorem constraintStep_epsi (T : Trig) (coeffs vars : Vec) (i : ℕ) (fg : Vec) :
    constraintStep T coeffs vars i fg (2 + epsi_start + i)
      = vars (epsi_start + i + 1)
          - ((vars (psi_start + i)
                - T.atan (coeffs 1 + (2 * coeffs 2 * vars (x_start + i))
                    + (3 * coeffs 3 * vars (x_start + i) ^ 2)))
              - vars (v_start + i) * vars (delta_start + i) / Lf * dt) := by
  simp only [constraintStep]
  rw [Function.update_same]

/-- Shorthand for the skip argument of `foldl_write_lookup`: iteration `j`
does not touch the cell of component `s` and iteration `i` when `j ≠ i`. -/
theorem constraintStep_skip_of_ne (T : Trig) (coeffs vars : Vec) (s : ℕ)
    (hs : s = x_start ∨ s = y_start ∨ s = psi_start ∨ s = v_start ∨ s = cte_start
      ∨ s = epsi_start)
    (i j : ℕ) (hi : i < N - 1) (hj : j < N - 1) (hne : j ≠ i) (fg : Vec) :
    constraintStep T coeffs vars j fg (2 + s + i) = fg (2 + s + i) := by
  simp only [x_start, y_start, psi_start, v_start, cte_start, epsi_start, N] at hs hi hj
  apply constraintStep_skip <;>
    simp only [x_start, y_start, psi_start, v_start, cte_start, epsi_start, N] <;>
    omega

theorem FG_eval_run_x (T : Trig) (coeffs vars fg0 : Vec) (i : ℕ) (hi : i < N - 1) :
    FG_eval_run T coeffs vars fg0 (2 + x_start + i)
      = vars (x_start + i + 1)
          - (vars (x_start + i) + vars (v_start + i) * T.cos (vars (psi_start + i)) * dt) :=
  foldl_write_lookup _ (fun i => 2 + x_start + i) _ (N - 1)
    (fun i _ fg => constraintStep_x T coeffs vars i fg)
    (fun i j hi hj hne fg => constraintStep_skip_of_ne T coeffs vars x_start (Or.inl rfl)
      i j hi hj hne fg)
    (N - 1) le_rfl _ i hi

theorem FG_eval_run_y (T : Trig) (coeffs vars fg0 : Vec) (i : ℕ) (hi : i < N - 1) :
    FG_eval_run T coeffs vars fg0 (2 + y_start + i)
      = vars (y_start + i + 1)
          - (vars (y_start + i) + vars (v_start + i) * T.sin (vars (psi_start + i)) * dt) :=
  foldl_write_lookup _ (fun i => 2 + y_start + i) _ (N - 1)
    (fun i _ fg => constraintStep_y T coeffs vars i fg)
    (fun i j hi hj hne fg => constraintStep_skip_of_ne T coeffs vars y_start
      (Or.inr (Or.inl rfl)) i j hi hj hne fg)
    (N - 1) le_rfl _ i hi

theorem FG_eval_run_psi (T : Trig) (coeffs vars fg0 : Vec) (i : ℕ) (hi : i < N - 1) :
    FG_eval_run T coeffs vars fg0 (2 + psi_start + i)
      = vars (psi_start + i + 1)
          - (vars (psi_start + i)
              - vars (v_start + i) * vars (delta_start + i) / Lf * dt) :=
  foldl_write_lookup _ (fun i => 2 + psi_start + i) _ (N - 1)
    (fun i _ fg => constraintStep_psi T coeffs vars i fg)
    (fun i j hi hj hne fg => constraintStep_skip_of_ne T coeffs vars psi_start
      (Or.inr (Or.inr (Or.inl rfl))) i j hi hj hne fg)
    (N - 1) le_rfl _ i hi

theorem FG_eval_run_v (T : Trig) (coeffs vars fg0 : Vec) (i : ℕ) (hi : i < N - 1) :
    FG_eval_run T coeffs vars fg0 (2 + v_start + i)
      = vars (v_start + i + 1) - (vars (v_start + i) + vars (a_start + i) * dt) :=
  foldl_write_lookup _ (fun i => 2 + v_start + i) _ (N - 1)
    (fun i _ fg => constraintStep_v T coeffs vars i fg)
    (fun i j hi hj hne fg => constraintStep_skip_of_ne T coeffs vars v_start
      (Or.inr (Or.inr (Or.inr (Or.inl rfl)))) i j hi hj hne fg)
    (N - 1) le_rfl _ i hi

theorem FG_eval_run_cte (T : Trig) (coeffs vars fg0 : Vec) (i : ℕ) (hi : i < N - 1) :
    FG_eval_run T coeffs vars fg0 (2 + cte_start + i)
      = vars (cte_start + i + 1)
          - ((coeffs 0 + coeffs 1 * vars (x_start + i) + coeffs 2 * vars (x_start + i) ^ 2
                + coeffs 3 * vars (x_start + i) ^ 3 - vars (y_start + i))
              + (vars (v_start + i) * T.sin (vars (epsi_start + i)) * dt)) :=
  foldl_write_lookup _ (fun i => 2 + cte_start + i) _ (N - 1)
    (fun i _ fg => constraintStep_cte T coeffs vars i fg)
    (fun i j hi hj hne fg => constraintStep_skip_of_ne T coeffs vars cte_start
      (Or.inr (Or.inr (Or.inr (Or.inr (Or.inl rfl))))) i j hi hj hne fg)
    (N - 1) le_rfl _ i hi

theorem FG_eval_run_epsi (T : Trig) (coeffs vars fg0 : Vec) (i : ℕ) (hi : i < N - 1) :
    FG_eval_run T coeffs vars fg0 (2 + epsi_start + i)
      = vars (epsi_start + i + 1)
          - ((vars (psi_start + i)
                - T.atan (coeffs 1 + (2 * coeffs 2 * vars (x_start + i))
                    + (3 * coeffs 3 * vars (x_start + i) ^ 2)))
              - vars (v_start + i) * vars (delta_start + i) / Lf * dt) :=
  foldl_write_lookup _ (fun i => 2 + epsi_start + i) _ (N - 1)
    (fun i _ fg => constraintStep_epsi T coeffs vars i fg)
    (fun i j hi hj hne fg => constraintStep_skip_of_ne T coeffs vars epsi_start
      (Or.inr (Or.inr (Or.inr (Or.inr (Or.inr rfl))))) i j hi hj hne fg)
    (N - 1) le_rfl _ i hi

/-- C1: for every horizon index `i < N - 1` and every candidate vector, the
residual written at constraint slot `1 + s_start + (i+1)` (that is, `fg` index
`2 + s_start + i`) is (actual next-step variable) minus (model-predicted
next-step value) under the kinematic bicycle model with `Lf = 2.67`; in
particular the psi update carries a minus sign, the cte update uses
`f(x_t) - y_t` with `f` the cubic, and the epsi update subtracts
`atan` of the derivative of the cubic. -/
theorem FG_eval_residuals_bicycle (T : Trig) (coeffs vars fg0 : Vec) (i : ℕ)
    (hi : i < N - 1) :
    Lf = 2.67 ∧
    FG_eval_run T coeffs vars fg0 (2 + x_start + i)
      = vars (x_start + i + 1)
          - (vars (x_start + i) + vars (v_start + i) * T.cos (vars (psi_start + i)) * dt) ∧
    FG_eval_run T coeffs vars fg0 (2 + y_start + i)
      = vars (y_start + i + 1)
          - (vars (y_start + i) + vars (v_start + i) * T.sin (vars (psi_start + i)) * dt) ∧
    FG_eval_run T coeffs vars fg0 (2 + psi_start + i)
      = vars (psi_start + i + 1)
          - (vars (psi_start + i)
              - vars (v_start + i) / Lf * vars (delta_start + i) * dt) ∧
    FG_eval_run T coeffs vars fg0 (2 + v_start + i)
      = vars (v_start + i + 1) - (vars (v_start + i) + vars (a_start + i) * dt) ∧
    FG_eval_run T coeffs vars fg0 (2 + cte_start + i)
      = vars (cte_start + i + 1)
          - ((coeffs 0 + coeffs 1 * vars (x_start + i) + coeffs 2 * vars (x_start + i) ^ 2
                + coeffs 3 * vars (x_start + i) ^ 3 - vars (y_start + i))
              + vars (v_start + i) * T.sin (vars (epsi_start + i)) * dt) ∧
    FG_eval_run T coeffs vars fg0 (2 + epsi_start + i)
      = vars (epsi_start + i + 1)
          - ((vars (psi_start + i)
                - T.atan (coeffs 1 + 2 * coeffs 2 * vars (x_start + i)
                    + 3 * coeffs 3 * vars (x_start + i) ^ 2))
              - vars (v_start + i) / Lf * vars (delta_start + i) * dt) := by
  refine ⟨rfl, FG_eval_run_x T coeffs vars fg0 i hi, FG_eval_run_y T coeffs vars fg0 i hi,
    ?_, FG_eval_run_v T coeffs vars fg0 i hi, ?_, ?_⟩
  · rw [FG_eval_run_psi T coeffs vars fg0 i hi]; ring
  · exact FG_eval_run_cte T coeffs vars fg0 i hi
  · rw [FG_eval_run_epsi T coeffs vars fg0 i hi]; ring

/-- Zero interpretation of the transcendental functions, used to instantiate
theorems on concrete inputs. -/
def T0 : Trig := ⟨fun _ => 0, fun _ => 0, fun _ => 0, 3⟩

/-- The all-zero vector, used to instantiate theorems on concrete inputs. -/
def zf : Vec := fun _ => 0

/-- Witness for C1 at `i = 0` with the zero interpretation: the psi residual
of the first prediction step. -/
theorem FG_eval_residuals_bicycle_witness :
    FG_eval_run T0 zf zf zf (2 + psi_start + 0)
      = zf (psi_start + 0 + 1)
          - (zf (psi_start + 0) - zf (v_start + 0) / Lf * zf (delta_start + 0) * dt) :=
  (FG_eval_residuals_bicycle T0 zf zf zf 0 (by decide)).2.2.2.1

/-- Initial decision-variable values built by `MPC::Solve`: every entry
zeroed, then the six entries at the state-block start offsets overwritten
with the current state, in program order. -/
def vars_init (state : Vec) : Vec :=
  Function.update (Function.update (Function.update (Function.update (Function.update
    (Function.update (fun _ => 0)
      x_start (state 0))
      y_start (state 1))
      psi_start (state 2))
      v_start (state 3))
      cte_start (state 4))
      epsi_start (state 5)

/-- Per-variable lower bounds set by `MPC::Solve`: `-1.0e19` on
`[0, delta_start)`, `-M_PI/8` on `[delta_start, a_start)`, `-1.0` on
`[a_start, n_vars)`; the three loops write disjoint consecutive ranges. -/
def vars_lowerbound (pi : ℚ) : Vec := fun i =>
  if i < delta_start then -(10 ^ 19)
  else if i < a_start then -(pi / 8)
  else -1

/-- Per-variable upper bounds set by `MPC::Solve`: `1.0e19`, `M_PI/8`, `1.0`
on the same three ranges. -/
def vars_upperbound (pi : ℚ) : Vec := fun i =>
  if i < delta_start then 10 ^ 19
  else if i < a_start then pi / 8
  else 1

/-- Constraint lower bounds set by `MPC::Solve`: every entry zeroed, then the
six entries at the state-block start offsets overwritten with the current
state, in program order. -/
def constraints_lowerbound (state : Vec) : Vec :=
  Function.update (Function.update (Function.update (Function.update (Function.update
    (Function.update (fun _ => 0)
      x_start (state 0))
      y_start (state 1))
      psi_start (state 2))
      v_start (state 3))
      cte_start (state 4))
      epsi_start (state 5)

/-- Constraint upper bounds set by `MPC::Solve`: identical writes to the
lower bounds. -/
def constraints_upperbound (state : Vec) : Vec :=
  Function.update (Function.update (Function.update (Function.update (Function.update
    (Function.update (fun _ => 0)
      x_start (state 0))
      y_start (state 1))
      psi_start (state 2))
      v_start (state 3))
      cte_start (state 4))
      epsi_start (state 5)

/-- Status codes of `CppAD::ipopt::solve_result` (the ones this development
distinguishes). -/
inductive SolveStatus where
  | not_defined
  | success
  | maxiter_exceeded
  | stop_at_tiny_step
  | local_infeasibility
  | invalid_number_detected
  | unknown
deriving DecidableEq, BEq

/-- The record returned by the external `CppAD::ipopt::solve` call: a status,
the solution vector `x`, and the objective value. -/
structure SolverOutput where
  status : SolveStatus
  x : Vec
  obj_value : ℚ

/-- The data `MPC::Solve` hands to the external solver. -/
structure NLP where
  vars : Vec
  vlb : Vec
  vub : Vec
  clb : Vec
  cub : Vec
  fg_eval : Vec → Vec → Vec

/-- The external solver, treated as a black box from the NLP data to a
status plus solution vector. -/
abbrev Solver := NLP → SolverOutput

/-- The NLP assembled by `MPC::Solve` before the solver call. -/
def mkNLP (T : Trig) (state coeffs : Vec) : NLP where
  vars := vars_init state
  vlb := vars_lowerbound T.pi
  vub := vars_upperbound T.pi
  clb := constraints_lowerbound state
  cub := constraints_upperbound state
  fg_eval := fun fg0 vars => FG_eval_run T coeffs vars fg0

/-- The extraction loop at the end of `MPC::Solve`: push the solution values
at `delta_start` and `a_start`, then for `i < N - 1` push the pair at
`x_start + i + 1` and `y_start + i + 1`. -/
def solveResult (sol : Vec) : List ℚ :=
  (List.range (N - 1)).foldl
    (fun r i => r ++ [sol (x_start + i + 1), sol (y_start + i + 1)])
    [sol delta_start, sol a_start]

/-- `MPC::Solve`: build the NLP, call the solver, check the status into a
local flag (which the code never reads again), and return the extracted
command and trajectory. -/
def Solve (T : Trig) (solver : Solver) (state coeffs : Vec) : List ℚ :=
  let solution := solver (mkNLP T state coeffs)
  let ok := true && (solution.status == SolveStatus.success)
  solveResult solution.x

/-- C4: every index below `delta_start = 6N` gets variable bounds
`-1e19`/`1e19`, the `N-1` steering indices get `-M_PI/8`/`M_PI/8`, the `N-1`
acceleration indices get `-1`/`1`, and the three ranges partition the
`6N + 2(N-1)` variable indices. -/
theorem Solve_var_bounds (pi : ℚ) (i : ℕ) :
    delta_start = 6 * N ∧ a_start = 6 * N + (N - 1) ∧ n_vars = 6 * N + 2 * (N - 1) ∧
    (i < 6 * N →
      vars_lowerbound pi i = -(10 ^ 19) ∧ vars_upperbound pi i = 10 ^ 19) ∧
    (6 * N ≤ i → i < 6 * N + (N - 1) →
      vars_lowerbound pi i = -(pi / 8) ∧ vars_upperbound pi i = pi / 8) ∧
    (6 * N + (N - 1) ≤ i → i < n_vars →
      vars_lowerbound pi i = -1 ∧ vars_upperbound pi i = 1) ∧
    (i < n_vars →
      (i < 6 * N ∧ ¬(6 * N ≤ i ∧ i < 6 * N + (N - 1)) ∧ ¬(6 * N + (N - 1) ≤ i ∧ i < n_vars))
      ∨ (¬(i < 6 * N) ∧ (6 * N ≤ i ∧ i < 6 * N + (N - 1))
          ∧ ¬(6 * N + (N - 1) ≤ i ∧ i < n_vars))
      ∨ (¬(i < 6 * N) ∧ ¬(6 * N ≤ i ∧ i < 6 * N + (N - 1))
          ∧ (6 * N + (N - 1) ≤ i ∧ i < n_vars))) := by
  refine ⟨by decide, by decide, by decide, ?_, ?_, ?_, ?_⟩
  · intro h
    have hd : i < delta_start := by
      simp only [delta_start, epsi_start, cte_start, v_start, psi_start, y_start, x_start, N]
      simp only [N] at h; omega
    constructor <;> simp only [vars_lowerbound, vars_upperbound, if_pos hd]
  · intro h1 h2
    have hd : ¬(i < delta_start) := by
      simp only [delta_start, epsi_start, cte_start, v_start, psi_start, y_start, x_start, N]
      simp only [N] at h1; omega
    have ha : i < a_start := by
      simp only [a_start, delta_start, epsi_start, cte_start, v_start, psi_start, y_start,
        x_start, N]
      simp only [N] at h2; omega
    constructor <;> simp only [vars_lowerbound, vars_upperbound, if_neg hd, if_pos ha]
  · intro h1 h2
    have hd : ¬(i < delta_start) := by
      simp only [delta_start, epsi_start, cte_start, v_start, psi_start, y_start, x_start, N]
      simp only [N] at h1; omega
    have ha : ¬(i < a_start) := by
      simp only [a_start, delta_start, epsi_start, cte_start, v_start, psi_start, y_start,
        x_start, N]
      simp only [N] at h1; omega
    constructor <;> simp only [vars_lowerbound, vars_upperbound, if_neg hd, if_neg ha]
  · intro h
    simp only [n_vars, N] at h ⊢
    omega

/-- Witness for C4 at `pi = 3`, `i = 90` (the first steering variable). -/
theorem Solve_var_bounds_witness :
    vars_lowerbound 3 90 = -(3 / 8) ∧ vars_upperbound 3 90 = 3 / 8 :=
  (Solve_var_bounds 3 90).2.2.2.2.1 (by decide) (by decide)

/-- The concrete state `[0, 1, 2, 3, 4, 5]` used to refute C3 as stated. -/
def exState : Vec := fun k => (k : ℚ)

/-- C3 counterexample: the claim says constraint index 1 (being one of the
first six constraint indices) has its lower bound set to the corresponding
current-state value, but the code leaves index 1 at 0: the pinned indices
are the block starts `0, N, 2N, 3N, 4N, 5N`, not `0..5`. -/
theorem Solve_constraint_bounds_claim_false :
    ¬(constraints_lowerbound exState 1 = exState 1
        ∧ constraints_upperbound exState 1 = exState 1) := by
  intro h
  have h1 : constraints_lowerbound exState 1 = 0 := by
    simp only [constraints_lowerbound]
    rw [Function.update_noteq (by decide), Function.update_noteq (by decide),
      Function.update_noteq (by decide), Function.update_noteq (by decide),
      Function.update_noteq (by decide), Function.update_noteq (by decide)]
  rw [h1] at h
  have h2 := h.1
  norm_num [exState] at h2

/-- C3 amended: all `6N` constraint-residual lower and upper bounds are
`[0,0]`, except the six block-start indices `k·N` for `k < 6` (the
initial-state slots), whose lower and upper bounds are both the `k`-th
current-state value. -/
theorem Solve_constraint_bounds (state : Vec) (i : ℕ) (hi : i < n_constraints) :
    (∀ k, k < 6 → i = k * N →
      constraints_lowerbound state i = state k ∧ constraints_upperbound state i = state k) ∧
    ((∀ k, k < 6 → i ≠ k * N) →
      constraints_lowerbound state i = 0 ∧ constraints_upperbound state i = 0) := by
  constructor
  · intro k hk hik
    subst hik
    interval_cases k <;>
      exact ⟨by simp only [constraints_lowerbound, x_start, y_start, psi_start, v_start,
          cte_start, epsi_start, N, Function.update_apply]; norm_num,
        by simp only [constraints_upperbound, x_start, y_start, psi_start, v_start,
          cte_start, epsi_start, N, Function.update_apply]; norm_num⟩
  · intro hne
    have h0 : i ≠ 0 * N := hne 0 (by omega)
    have h1 : i ≠ 1 * N := hne 1 (by omega)
    have h2 : i ≠ 2 * N := hne 2 (by omega)
    have h3 : i ≠ 3 * N := hne 3 (by omega)
    have h4 : i ≠ 4 * N := hne 4 (by omega)
    have h5 : i ≠ 5 * N := hne 5 (by omega)
    simp only [N] at h0 h1 h2 h3 h4 h5
    constructor
    · simp only [constraints_lowerbound, x_start, y_start, psi_start, v_start, cte_start,
        epsi_start, N, Function.update_apply]
      rw [if_neg (by omega), if_neg (by omega), if_neg (by omega), if_neg (by omega),
        if_neg (by omega), if_neg (by omega)]
    · simp only [constraints_upperbound, x_start, y_start, psi_start, v_start, cte_start,
        epsi_start, N, Function.update_apply]
      rw [if_neg (by omega), if_neg (by omega), if_neg (by omega), if_neg (by omega),
        if_neg (by omega), if_neg (by omega)]

/-- Witness for the amended C3 at `i = N = 15` (the pinned y slot) and at
`i = 1` (a dynamics slot, bounded to zero). -/
theorem Solve_constraint_bounds_witness :
    (constraints_lowerbound exState 15 = exState 1
        ∧ constraints_upperbound exState 15 = exState 1)
      ∧ (constraints_lowerbound exState 1 = 0 ∧ constraints_upperbound exState 1 = 0) :=
  ⟨(Solve_constraint_bounds exState 15 (by decide)).1 1 (by decide) (by decide),
   (Solve_constraint_bounds exState 1 (by decide)).2 (by intro k hk; interval_cases k <;> decide)⟩

/-- A `push_back` loop that appends a pair per iteration equals the initial
list followed by the flattened pairs. -/
theorem foldl_append_pairs (f g : ℕ → ℚ) :
    ∀ (l : List ℕ) (acc : List ℚ),
      l.foldl (fun r i => r ++ [f i, g i]) acc = acc ++ l.flatMap (fun i => [f i, g i]) := by
  intro l
  induction l with
  | nil => intro acc; simp
  | cons a t ih =>
    intro acc
    rw [List.foldl_cons, ih, List.flatMap_cons, List.append_assoc]

theorem length_flatMap_pairs (f g : ℕ → ℚ) :
    ∀ l : List ℕ, (l.flatMap (fun i => [f i, g i])).length = 2 * l.length := by
  intro l
  induction l with
  | nil => simp
  | cons a t ih =>
    rw [List.flatMap_cons, List.length_append, ih, List.length_cons]
    simp only [List.length_cons, List.length_nil]
    omega

theorem solveResult_eq (sol : Vec) :
    solveResult sol = sol delta_start :: sol a_start ::
      (List.range (N - 1)).flatMap (fun i => [sol (x_start + i + 1), sol (y_start + i + 1)]) := by
  rw [solveResult, foldl_append_pairs]
  rfl

/-- C5: the sequence returned by `Solve` is the solution value at the
delta-block start, the solution value at the a-block start, then the solution
(x, y) pair at timestep `i + 1` for each `i < N - 1` in order, and its length
is exactly `2 + 2(N-1)` regardless of the input values. -/
theorem Solve_output_layout (T : Trig) (solver : Solver) (state coeffs : Vec) :
    Solve T solver state coeffs =
      (solver (mkNLP T state coeffs)).x delta_start
        :: (solver (mkNLP T state coeffs)).x a_start
        :: (List.range (N - 1)).flatMap (fun i =>
            [(solver (mkNLP T state coeffs)).x (x_start + i + 1),
             (solver (mkNLP T state coeffs)).x (y_start + i + 1)]) ∧
    (Solve T solver state coeffs).length = 2 + 2 * (N - 1) := by
  constructor
  · exact solveResult_eq ((solver (mkNLP T state coeffs)).x)
  · show (solveResult ((solver (mkNLP T state coeffs)).x)).length = 2 + 2 * (N - 1)
    rw [solveResult_eq, List.length_cons, List.length_cons, length_flatMap_pairs,
      List.length_range]
    omega

/-- C6: the decision-variable vector is one flat sequence of length
`6N + 2(N-1)` whose six state blocks start at offsets `0, N, 2N, 3N, 4N, 5N`,
followed by the delta block at `6N` and the a block at `7N - 1`. -/
theorem block_layout :
    x_start = 0 ∧ y_start = N ∧ psi_start = 2 * N ∧ v_start = 3 * N ∧ cte_start = 4 * N
      ∧ epsi_start = 5 * N ∧ delta_start = 6 * N ∧ a_start = 7 * N - 1
      ∧ n_vars = 6 * N + 2 * (N - 1) ∧ n_constraints = 6 * N := by
  decide

/-- A concrete solution vector for instantiating the driver theorems. -/
def xSol : Vec := fun k => (k : ℚ)

/-- A solver stub that reports success. -/
def solverOK : Solver := fun _ => ⟨SolveStatus.success, xSol, 0⟩

/-- A solver stub that reports `maxiter_exceeded` with the same solution
vector as `solverOK`. -/
def solverFail : Solver := fun _ => ⟨SolveStatus.maxiter_exceeded, xSol, 0⟩

/-- C7 counterexample: two solver runs that differ only in the reported
status give identical return values of `Solve`, so the return value does not
carry the solver status to the caller: only the extracted values reach it. -/
theorem Solve_status_not_received :
    Solve T0 solverFail exState exState = Solve T0 solverOK exState exState
      ∧ (solverFail (mkNLP T0 exState exState)).status
          ≠ (solverOK (mkNLP T0 exState exState)).status := by
  exact ⟨rfl, by decide⟩

/-- C7 amended: on a non-success status, `Solve` still extracts the first-step
commands and predicted trajectory from the (possibly invalid) solution vector
and substitutes no internal default — the result is exactly the extraction
from the solver's `x`, and any solver agreeing on `x` yields the same
result — but the status itself is not part of the return value the caller
receives. -/
theorem Solve_extracts_despite_failure (T : Trig) (solver : Solver) (state coeffs : Vec)
    (hfail : (solver (mkNLP T state coeffs)).status ≠ SolveStatus.success) :
    Solve T solver state coeffs = solveResult ((solver (mkNLP T state coeffs)).x)
      ∧ (∀ solver2 : Solver,
          (solver2 (mkNLP T state coeffs)).x = (solver (mkNLP T state coeffs)).x →
            Solve T solver2 state coeffs = Solve T solver state coeffs) := by
  constructor
  · rfl
  · intro solver2 hx
    show solveResult ((solver2 (mkNLP T state coeffs)).x)
      = solveResult ((solver (mkNLP T state coeffs)).x)
    rw [hx]

/-- Witness for the amended C7 with the failing solver stub. -/
theorem Solve_extracts_despite_failure_witness :
    Solve T0 solverFail exState exState
      = solveResult ((solverFail (mkNLP T0 exState exState)).x) :=
  (Solve_extracts_despite_failure T0 solverFail exState exState (by decide)).1

/-- Block-start offset arithmetic with the horizon length abstracted: the
same formulas the code computes from its constant `N`. -/
def x_startN (n : ℕ) : ℕ := 0

def y_startN (n : ℕ) : ℕ := x_startN n + n

def psi_startN (n : ℕ) : ℕ := y_startN n + n

def v_startN (n : ℕ) : ℕ := psi_startN n + n

def cte_startN (n : ℕ) : ℕ := v_startN n + n

def epsi_startN (n : ℕ) : ℕ := cte_startN n + n

def delta_startN (n : ℕ) : ℕ := epsi_startN n + n

def a_startN (n : ℕ) : ℕ := delta_startN n + n - 1

def n_varsN (n : ℕ) : ℕ := 6 * n + 2 * (n - 1)

def n_constraintsN (n : ℕ) : ℕ := 6 * n

/-- Every variable read and every `fg` write performed by the formulator at
horizon `n` is in bounds: variable indices below `n_varsN n` and `fg` indices
below `1 + n_constraintsN n`. -/
def indexingOK (n : ℕ) : Prop :=
  (∀ i, i < n → cte_startN n + i < n_varsN n ∧ epsi_startN n + i < n_varsN n
    ∧ v_startN n + i < n_varsN n)
  ∧ (∀ i, i < n - 1 → delta_startN n + i < n_varsN n ∧ a_startN n + i < n_varsN n)
  ∧ (∀ i, i < n - 2 → delta_startN n + i + 1 < n_varsN n ∧ a_startN n + i + 1 < n_varsN n)
  ∧ (1 + x_startN n < 1 + n_constraintsN n ∧ 1 + y_startN n < 1 + n_constraintsN n
    ∧ 1 + psi_startN n < 1 + n_constraintsN n ∧ 1 + v_startN n < 1 + n_constraintsN n
    ∧ 1 + cte_startN n < 1 + n_constraintsN n ∧ 1 + epsi_startN n < 1 + n_constraintsN n)
  ∧ (∀ i, i < n - 1 →
      (x_startN n + i + 1 < n_varsN n ∧ y_startN n + i + 1 < n_varsN n
        ∧ psi_startN n + i + 1 < n_varsN n ∧ v_startN n + i + 1 < n_varsN n
        ∧ cte_startN n + i + 1 < n_varsN n ∧ epsi_startN n + i + 1 < n_varsN n)
      ∧ (2 + x_startN n + i < 1 + n_constraintsN n ∧ 2 + y_startN n + i < 1 + n_constraintsN n
        ∧ 2 + psi_startN n + i < 1 + n_constraintsN n ∧ 2 + v_startN n + i < 1 + n_constraintsN n
        ∧ 2 + cte_startN n + i < 1 + n_constraintsN n
        ∧ 2 + epsi_startN n + i < 1 + n_constraintsN n))

/-- C8: at horizon 2 the offset arithmetic yields a well-formed NLP with
`6·2 = 12` state-variable entries plus `2·(2-1) = 2` control entries (so
`n_vars = 14`) and `6·2 = 12` constraints, with every formulator index in
bounds; and the parametric offsets agree with the code's constants at
`n = N`. -/
theorem degenerate_horizon_two :
    n_varsN 2 = 12 + 2 ∧ 6 * 2 = 12 ∧ 2 * (2 - 1) = 2 ∧ n_constraintsN 2 = 12
      ∧ delta_startN 2 = 12 ∧ a_startN 2 = 13
      ∧ indexingOK 2
      ∧ x_startN N = x_start ∧ y_startN N = y_start ∧ psi_startN N = psi_start
      ∧ v_startN N = v_start ∧ cte_startN N = cte_start ∧ epsi_startN N = epsi_start
      ∧ delta_startN N = delta_start ∧ a_startN N = a_start
      ∧ n_varsN N = n_vars ∧ n_constraintsN N = n_constraints := by
  refine ⟨by decide, by decide, by decide, by decide, by decide, by decide, ?_, by decide,
    by decide, by decide, by decide, by decide, by decide, by decide, by decide, by decide,
    by decide⟩
  refine ⟨?_, ?_, ?_, by decide, ?_⟩ <;> (intro i hi; interval_cases i <;> decide)

/-- Arithmetic expression trees of the formulator, as the source writes them:
a deep embedding used to state which divisions the model performs. -/
inductive AExp where
  | const : ℚ → AExp
  | varE : ℕ → AExp
  | coeffE : ℕ → AExp
  | add : AExp → AExp → AExp
  | sub : AExp → AExp → AExp
  | mul : AExp → AExp → AExp
  | div : AExp → AExp → AExp
  | powE : AExp → ℕ → AExp
  | sinE : AExp → AExp
  | cosE : AExp → AExp
  | atanE : AExp → AExp
deriving DecidableEq

/-- Evaluation of an expression tree at a candidate vector, coefficients and
an interpretation of the transcendental functions. -/
def aeval (T : Trig) (coeffs vars : Vec) : AExp → ℚ
  | .const q => q
  | .varE k => vars k
  | .coeffE k => coeffs k
  | .add e1 e2 => aeval T coeffs vars e1 + aeval T coeffs vars e2
  | .sub e1 e2 => aeval T coeffs vars e1 - aeval T coeffs vars e2
  | .mul e1 e2 => aeval T coeffs vars e1 * aeval T coeffs vars e2
  | .div e1 e2 => aeval T coeffs vars e1 / aeval T coeffs vars e2
  | .powE e1 k => aeval T coeffs vars e1 ^ k
  | .sinE e1 => T.sin (aeval T coeffs vars e1)
  | .cosE e1 => T.cos (aeval T coeffs vars e1)
  | .atanE e1 => T.atan (aeval T coeffs vars e1)

/-- All denominators (right operands of `div` nodes) occurring in an
expression tree. -/
def denomsIn : AExp → List AExp
  | .const _ => []
  | .varE _ => []
  | .coeffE _ => []
  | .add e1 e2 => denomsIn e1 ++ denomsIn e2
  | .sub e1 e2 => denomsIn e1 ++ denomsIn e2
  | .mul e1 e2 => denomsIn e1 ++ denomsIn e2
  | .div e1 e2 => denomsIn e1 ++ denomsIn e2 ++ [e2]
  | .powE e1 _ => denomsIn e1
  | .sinE e1 => denomsIn e1
  | .cosE e1 => denomsIn e1
  | .atanE e1 => denomsIn e1

/-- The tree of `f0 = coeffs[0] + coeffs[1]*x0 + coeffs[2]*x0^2 + coeffs[3]*x0^3`. -/
def f0E (i : ℕ) : AExp :=
  .add (.add (.add (.coeffE 0) (.mul (.coeffE 1) (.varE (x_start + i))))
    (.mul (.coeffE 2) (.powE (.varE (x_start + i)) 2)))
    (.mul (.coeffE 3) (.powE (.varE (x_start + i)) 3))

/-- The tree of `psides0 = atan(coeffs[1] + 2*coeffs[2]*x0 + 3*coeffs[3]*x0^2)`. -/
def psides0E (i : ℕ) : AExp :=
  .atanE (.add (.add (.coeffE 1) (.mul (.mul (.const 2) (.coeffE 2)) (.varE (x_start + i))))
    (.mul (.mul (.const 3) (.coeffE 3)) (.powE (.varE (x_start + i)) 2)))

/-- The tree of `x1 - (x0 + v0 * cos(psi0) * dt)`. -/
def residE_x (i : ℕ) : AExp :=
  .sub (.varE (x_start + i + 1))
    (.add (.varE (x_start + i))
      (.mul (.mul (.varE (v_start + i)) (.cosE (.varE (psi_start + i)))) (.const dt)))

/-- The tree of `y1 - (y0 + v0 * sin(psi0) * dt)`. -/
def residE_y (i : ℕ) : AExp :=
  .sub (.varE (y_start + i + 1))
    (.add (.varE (y_start + i))
      (.mul (.mul (.varE (v_start + i)) (.sinE (.varE (psi_start + i)))) (.const dt)))

/-- The tree of `psi1 - (psi0 - v0 * delta0 / Lf * dt)`. -/
def residE_psi (i : ℕ) : AExp :=
  .sub (.varE (psi_start + i + 1))
    (.sub (.varE (psi_start + i))
      (.mul (.div (.mul (.varE (v_start + i)) (.varE (delta_start + i))) (.const Lf))
        (.const dt)))

/-- The tree of `v1 - (v0 + a0 * dt)`. -/
def residE_v (i : ℕ) : AExp :=
  .sub (.varE (v_start + i + 1))
    (.add (.varE (v_start + i)) (.mul (.varE (a_start + i)) (.const dt)))

/-- The tree of `cte1 - ((f0 - y0) + (v0 * sin(epsi0) * dt))`. -/
def residE_cte (i : ℕ) : AExp :=
  .sub (.varE (cte_start + i + 1))
    (.add (.sub (f0E i) (.varE (y_start + i)))
      (.mul (.mul (.varE (v_start + i)) (.sinE (.varE (epsi_start + i)))) (.const dt)))

/-- The tree of `epsi1 - ((psi0 - psides0) - v0 * delta0 / Lf * dt)`. -/
def residE_epsi (i : ℕ) : AExp :=
  .sub (.varE (epsi_start + i + 1))
    (.sub (.sub (.varE (psi_start + i)) (psides0E i))
      (.mul (.div (.mul (.varE (v_start + i)) (.varE (delta_start + i))) (.const Lf))
        (.const dt)))

/-- The tree of the three tracking-cost addends of one iteration of the first
cost loop. -/
def costTrackE (i : ℕ) : AExp :=
  .add (.add (.mul (.const cost_cte_factor)
      (.powE (.sub (.varE (cte_start + i)) (.const ref_cte)) 2))
    (.mul (.const cost_epsi_factor)
      (.powE (.sub (.varE (epsi_start + i)) (.const ref_epsi)) 2)))
    (.mul (.const cost_v_factor) (.powE (.sub (.varE (v_start + i)) (.const ref_v)) 2))

/-- The tree of the two actuator-magnitude addends of one iteration of the
second cost loop. -/
def costEffortE (i : ℕ) : AExp :=
  .add (.mul (.const cost_current_delta_factor) (.powE (.varE (delta_start + i)) 2))
    (.mul (.const cost_current_a_factor) (.powE (.varE (a_start + i)) 2))

/-- The tree of the two actuator-gap addends of one iteration of the third
cost loop. -/
def costSmoothE (i : ℕ) : AExp :=
  .add (.mul (.const cost_diff_delta_factor)
      (.powE (.sub (.varE (delta_start + i + 1)) (.varE (delta_start + i))) 2))
    (.mul (.const cost_diff_a_factor)
      (.powE (.sub (.varE (a_start + i + 1)) (.varE (a_start + i))) 2))

/-- C9: in the formulator the only `div` nodes are divisions by the constant
`Lf = 2.67` (in the psi and epsi residuals; no division in the cost), `Lf`
is nonzero, so no evaluation divides by zero; the trees faithfully evaluate
to the residuals written by `constraintStep` and to the cost addends. -/
theorem divisions_only_by_Lf (T : Trig) (coeffs vars : Vec) (i : ℕ) :
    Lf ≠ 0 ∧
    denomsIn (residE_x i) = [] ∧ denomsIn (residE_y i) = [] ∧
    denomsIn (residE_psi i) = [.const Lf] ∧ denomsIn (residE_v i) = [] ∧
    denomsIn (residE_cte i) = [] ∧ denomsIn (residE_epsi i) = [.const Lf] ∧
    denomsIn (costTrackE i) = [] ∧ denomsIn (costEffortE i) = [] ∧
    denomsIn (costSmoothE i) = [] ∧
    (∀ e, (e ∈ denomsIn (residE_x i) ∨ e ∈ denomsIn (residE_y i)
        ∨ e ∈ denomsIn (residE_psi i) ∨ e ∈ denomsIn (residE_v i)
        ∨ e ∈ denomsIn (residE_cte i) ∨ e ∈ denomsIn (residE_epsi i)
        ∨ e ∈ denomsIn (costTrackE i) ∨ e ∈ denomsIn (costEffortE i)
        ∨ e ∈ denomsIn (costSmoothE i)) →
      aeval T coeffs vars e = 2.67 ∧ aeval T coeffs vars e ≠ 0) ∧
    (∀ fg : Vec,
      aeval T coeffs vars (residE_x i) = constraintStep T coeffs vars i fg (2 + x_start + i)
      ∧ aeval T coeffs vars (residE_y i) = constraintStep T coeffs vars i fg (2 + y_start + i)
      ∧ aeval T coeffs vars (residE_psi i) = constraintStep T coeffs vars i fg (2 + psi_start + i)
      ∧ aeval T coeffs vars (residE_v i) = constraintStep T coeffs vars i fg (2 + v_start + i)
      ∧ aeval T coeffs vars (residE_cte i) = constraintStep T coeffs vars i fg (2 + cte_start + i)
      ∧ aeval T coeffs vars (residE_epsi i)
          = constraintStep T coeffs vars i fg (2 + epsi_start + i)) ∧
    cost vars = (∑ j in Finset.range N, aeval T coeffs vars (costTrackE j))
      + (∑ j in Finset.range (N - 1), aeval T coeffs vars (costEffortE j))
      + (∑ j in Finset.range (N - 2), aeval T coeffs vars (costSmoothE j)) := by
  refine ⟨by norm_num [Lf], rfl, rfl, rfl, rfl, rfl, rfl, rfl, rfl, rfl, ?_, ?_, ?_⟩
  · intro e he
    have hLf : e = .const Lf := by
      rcases he with h | h | h | h | h | h | h | h | h
      · exact absurd (h : e ∈ ([] : List AExp)) (List.not_mem_nil e)
      · exact absurd (h : e ∈ ([] : List AExp)) (List.not_mem_nil e)
      · exact List.mem_singleton.mp (h : e ∈ [AExp.const Lf])
      · exact absurd (h : e ∈ ([] : List AExp)) (List.not_mem_nil e)
      · exact absurd (h : e ∈ ([] : List AExp)) (List.not_mem_nil e)
      · exact List.mem_singleton.mp (h : e ∈ [AExp.const Lf])
      · exact absurd (h : e ∈ ([] : List AExp)) (List.not_mem_nil e)
      · exact absurd (h : e ∈ ([] : List AExp)) (List.not_mem_nil e)
      · exact absurd (h : e ∈ ([] : List AExp)) (List.not_mem_nil e)
    subst hLf
    exact ⟨rfl, by norm_num [aeval, Lf]⟩
  · intro fg
    refine ⟨?_, ?_, ?_, ?_, ?_, ?_⟩
    · rw [constraintStep_x]; simp [aeval, residE_x]
    · rw [constraintStep_y]; simp [aeval, residE_y]
    · rw [constraintStep_psi]; simp [aeval, residE_psi]
    · rw [constraintStep_v]; simp [aeval, residE_v]
    · rw [constraintStep_cte]; simp [aeval, residE_cte, f0E]
    · rw [constraintStep_epsi]; simp [aeval, residE_epsi, psides0E]
  · rw [cost, costLoop3_eq, costLoop2_eq, costLoop1_eq, zero_add]
    have ht : ∀ j : ℕ, aeval T coeffs vars (costTrackE j)
        = cost_cte_factor * (vars (cte_start + j) - ref_cte) ^ 2
          + cost_epsi_factor * (vars (epsi_start + j) - ref_epsi) ^ 2
          + cost_v_factor * (vars (v_start + j) - ref_v) ^ 2 := fun j => rfl
    have he : ∀ j : ℕ, aeval T coeffs vars (costEffortE j)
        = cost_current_delta_factor * vars (delta_start + j) ^ 2
          + cost_current_a_factor * vars (a_start + j) ^ 2 := fun j => rfl
    have hs : ∀ j : ℕ, aeval T coeffs vars (costSmoothE j)
        = cost_diff_delta_factor * (vars (delta_start + j + 1) - vars (delta_start + j)) ^ 2
          + cost_diff_a_factor * (vars (a_start + j + 1) - vars (a_start + j)) ^ 2 :=
      fun j => rfl
    simp only [ht, he, hs]

/-- Witness for C9: the lone denominator of the psi residual evaluates to
`2.67 ≠ 0` under the zero interpretation. -/
theorem divisions_only_by_Lf_witness :
    aeval T0 zf zf (.const Lf) = 2.67 ∧ aeval T0 zf zf (.const Lf) ≠ 0 :=
  (divisions_only_by_Lf T0 zf zf 0).2.2.2.2.2.2.2.2.2.2.1 (.const Lf)
    (Or.inr (Or.inr (Or.inl
      (show AExp.const Lf ∈ denomsIn (residE_psi 0) from List.mem_singleton.mpr rfl))))

/-- Coefficient access with the vector's actual length: `coeffs[k]` becomes a
`none` result when `k` is out of bounds. `f0` reads entries 0, 1, 2, 3. -/
def f0_read (coeffs : List ℚ) (x0 : ℚ) : Option ℚ := do
  let c0 ← coeffs[0]?
  let c1 ← coeffs[1]?
  let c2 ← coeffs[2]?
  let c3 ← coeffs[3]?
  pure (c0 + c1 * x0 + c2 * x0 ^ 2 + c3 * x0 ^ 3)

/-- Coefficient access of `psides0`: reads entries 1, 2, 3. -/
def psides0_read (T : Trig) (coeffs : List ℚ) (x0 : ℚ) : Option ℚ := do
  let c1 ← coeffs[1]?
  let c2 ← coeffs[2]?
  let c3 ← coeffs[3]?
  pure (T.atan (c1 + (2 * c2 * x0) + (3 * c3 * x0 ^ 2)))

/-- C10: the formulator's polynomial evaluations read coefficient entries up
to index 3 unconditionally, so they are well defined exactly when the
coefficient sequence has at least 4 entries; shorter sequences make the read
go out of bounds (`none`), and with at least 4 entries the reads agree with
the total-function embedding. -/
theorem coeffs_need_four (T : Trig) (cs : List ℚ) (x0 : ℚ) :
    ((f0_read cs x0).isSome ↔ 4 ≤ cs.length)
      ∧ ((psides0_read T cs x0).isSome ↔ 4 ≤ cs.length)
      ∧ (cs.length < 4 → f0_read cs x0 = none ∧ psides0_read T cs x0 = none)
      ∧ (4 ≤ cs.length →
          f0_read cs x0 = some (cs.getD 0 0 + cs.getD 1 0 * x0 + cs.getD 2 0 * x0 ^ 2
            + cs.getD 3 0 * x0 ^ 3)
          ∧ psides0_read T cs x0 = some (T.atan (cs.getD 1 0 + (2 * cs.getD 2 0 * x0)
              + (3 * cs.getD 3 0 * x0 ^ 2)))) := by
  rcases cs with _ | ⟨a, _ | ⟨b, _ | ⟨c, _ | ⟨d, t⟩⟩⟩⟩ <;>
    refine ⟨?_, ?_, ?_, ?_⟩ <;>
      simp [f0_read, psides0_read, List.getD]

/-- Witness for C10: a length-3 coefficient list makes both reads go out of
bounds. -/
theorem coeffs_need_four_witness :
    f0_read [1, 2, 3] 0 = none ∧ psides0_read T0 [1, 2, 3] 0 = none :=
  (coeffs_need_four T0 [1, 2, 3] 0).2.2.1 (by decide)

end MPCVerify
